import Mathlib

/-!
Shallow embedding of the `ZkSolvencyFHE` Solidity contract
(contracts/zkSolvencyFHE.sol): a confidential batch submission and
decryption-oracle protocol.  Contract storage becomes a `State` record,
each external function becomes a Lean function from `State` to a
`StepResult` (post-state, emitted events, optional revert error), and
traces are executed by `run`.

Modelling decisions, each noted at its definition:
- addresses and ciphertext handles are `Nat`; a handle is
  FHE-initialized iff it is nonzero (`FHE.isInitialized`);
- `keccak256(abi.encode(...))` is modelled as an injective function
  built from `Nat.pair` (collision resistance idealized as injectivity);
- the external oracle primitives `FHE.requestDecryption` (which returns
  an oracle-chosen request id) and `FHE.checkSignatures` (proof
  verification) are modelled as inputs of the corresponding operations:
  the request id is an argument of `requestLoanApproval`, and the
  verification outcome a Boolean argument of `myCallback`;
- the 96-byte cleartext payload is modelled as the three decoded 32-bit
  words it carries (`Cleartexts`);
- Solidity revert semantics: every function is translated in source
  order, with each revert point returning the state reached so far.  In
  this contract every revert point precedes every storage write, so the
  returned state on an error path is always the entry state; the
  atomicity theorems below make that explicit rather than assuming it.
-/

namespace ZkSolvencyFHE

/-- Account addresses, modelled as naturals (0 is the zero address). -/
abbrev Address := Nat

/-- An `euint32` ciphertext handle.  Handle 0 is the uninitialized
(null) handle: `FHE.isInitialized` holds iff the handle is nonzero. -/
abbrev Handle := Nat

/-- `FHE.isInitialized` on an `euint32` handle. -/
def FHE.isInitialized (h : Handle) : Bool := h ≠ 0

/-- struct LoanApplication: the three ciphertext handles of one batch
record. -/
structure LoanApplication where
  encryptedAssets : Handle
  encryptedLiabilities : Handle
  encryptedSolvencyProof : Handle
deriving DecidableEq, Repr

/-- struct DecryptionContext, keyed by request id.  A Solidity mapping
has no absent entries: an unrecorded id maps to the default
`⟨0, 0, false⟩`. -/
structure DecryptionContext where
  batchId : Nat
  stateHash : Nat
  processed : Bool
deriving DecidableEq, Repr

/-- The decoded content of the oracle callback payload: exactly three
32-bit words at fixed offsets (bytes [0,32) assets, [32,64)
liabilities, [64,96) solvencyProof). -/
structure Cleartexts where
  assets : Nat
  liabilities : Nat
  solvencyProof : Nat
deriving DecidableEq, Repr

/-- The contract errors.  The first ten are the named custom errors
declared in the source; `CiphertextNotInitialized` is the string revert
of `_requireInitialized` (the error the spec calls `RecordIncomplete`).
`UnknownRequest` is named only by the spec: the contract declares no
such error and, as proved below, never raises it. -/
inductive Err where
  | NotOwner
  | NotProvider
  | Paused
  | CooldownActive
  | BatchNotOpen
  | BatchAlreadyOpen
  | InvalidBatch
  | ReplayAttempt
  | StateMismatch
  | DecryptionFailed
  | CiphertextNotInitialized
  | UnknownRequest
deriving DecidableEq, Repr

/-- The contract events. -/
inductive Event where
  | OwnershipTransferred (previousOwner newOwner : Address)
  | ProviderAdded (provider : Address)
  | ProviderRemoved (provider : Address)
  | PauseToggled (paused : Bool)
  | CooldownSecondsUpdated (oldCooldown newCooldown : Nat)
  | BatchOpened (batchId : Nat)
  | BatchClosed (batchId : Nat)
  | LoanApplicationSubmitted (provider : Address) (batchId : Nat)
      (assets liabilities solvencyProof : Handle)
  | DecryptionRequested (requestId batchId : Nat)
  | DecryptionCompleted (requestId batchId : Nat)
      (assets liabilities solvencyProof : Nat)
deriving DecidableEq, Repr

/-- The contract storage, plus `contractAddr` (the value of
`address(this)`, fixed for a deployed instance and mixed into the
commitment hash). -/
structure State where
  contractAddr : Address
  owner : Address
  isProvider : Address → Bool
  paused : Bool
  cooldownSeconds : Nat
  lastSubmissionTime : Address → Nat
  lastDecryptionRequestTime : Address → Nat
  currentBatchId : Nat
  batchOpen : Bool
  loanApplications : Nat → LoanApplication
  decryptionContexts : Nat → DecryptionContext

/-- Result of one external call: the state when the call returns
(unchanged entry state on a revert, since in this contract every revert
point precedes every storage write), the events it emitted (none on a
revert), and the revert error if any. -/
structure StepResult where
  state : State
  events : List Event
  err : Option Err

/-- `_hashCiphertexts`: `keccak256(abi.encode(ctsAsBytes, address(this)))`
over the handles.  The hash is modelled as an injective function of the
handle list and the contract address, via the `Nat.pair` pairing
function: collision resistance of keccak256 is idealized as
injectivity. -/
def hashCiphertexts (cts : List Handle) (thisAddr : Address) : Nat :=
  Nat.pair (cts.foldr Nat.pair 0) thisAddr

/-- The constructor: deployer becomes owner, cooldown defaults to 60,
all mappings empty, no batch open. -/
def initState (deployer thisAddr : Address) : State where
  contractAddr := thisAddr
  owner := deployer
  isProvider := fun _ => false
  paused := false
  cooldownSeconds := 60
  lastSubmissionTime := fun _ => 0
  lastDecryptionRequestTime := fun _ => 0
  currentBatchId := 0
  batchOpen := false
  loanApplications := fun _ => ⟨0, 0, 0⟩
  decryptionContexts := fun _ => ⟨0, 0, false⟩

/-- `transferOwnership(newOwner)`: onlyOwner; unconditionally sets the
owner (no zero-address validation, no pause check) and emits. -/
def transferOwnership (sender newOwner : Address) (σ : State) : StepResult :=
  if sender ≠ σ.owner then ⟨σ, [], some .NotOwner⟩
  else
    ⟨{ σ with owner := newOwner },
     [.OwnershipTransferred σ.owner newOwner], none⟩

/-- `addProvider(provider)`: onlyOwner; silent no-op when already a
provider, otherwise grants the role and emits. -/
def addProvider (sender provider : Address) (σ : State) : StepResult :=
  if sender ≠ σ.owner then ⟨σ, [], some .NotOwner⟩
  else if σ.isProvider provider then ⟨σ, [], none⟩
  else
    ⟨{ σ with isProvider := fun a => if a = provider then true else σ.isProvider a },
     [.ProviderAdded provider], none⟩

/-- `removeProvider(provider)`: onlyOwner; silent no-op when not a
provider, otherwise revokes the role and emits. -/
def removeProvider (sender provider : Address) (σ : State) : StepResult :=
  if sender ≠ σ.owner then ⟨σ, [], some .NotOwner⟩
  else if σ.isProvider provider then
    ⟨{ σ with isProvider := fun a => if a = provider then false else σ.isProvider a },
     [.ProviderRemoved provider], none⟩
  else ⟨σ, [], none⟩

/-- `setPaused(_paused)`: onlyOwner; sets the flag and emits. -/
def setPaused (sender : Address) (p : Bool) (σ : State) : StepResult :=
  if sender ≠ σ.owner then ⟨σ, [], some .NotOwner⟩
  else ⟨{ σ with paused := p }, [.PauseToggled p], none⟩

/-- `setCooldownSeconds(newCooldownSeconds)`: onlyOwner; sets the
cooldown and emits old and new values. -/
def setCooldownSeconds (sender : Address) (newCooldown : Nat) (σ : State) : StepResult :=
  if sender ≠ σ.owner then ⟨σ, [], some .NotOwner⟩
  else
    ⟨{ σ with cooldownSeconds := newCooldown },
     [.CooldownSecondsUpdated σ.cooldownSeconds newCooldown], none⟩

/-- `openBatch()`: onlyOwner, whenNotPaused; fails if a batch is open,
otherwise increments the counter, opens, and emits the new id. -/
def openBatch (sender : Address) (σ : State) : StepResult :=
  if sender ≠ σ.owner then ⟨σ, [], some .NotOwner⟩
  else if σ.paused then ⟨σ, [], some .Paused⟩
  else if σ.batchOpen then ⟨σ, [], some .BatchAlreadyOpen⟩
  else
    ⟨{ σ with currentBatchId := σ.currentBatchId + 1, batchOpen := true },
     [.BatchOpened (σ.currentBatchId + 1)], none⟩

/-- `closeBatch()`: onlyOwner, whenNotPaused; fails if no batch is
open, otherwise closes and emits the current id. -/
def closeBatch (sender : Address) (σ : State) : StepResult :=
  if sender ≠ σ.owner then ⟨σ, [], some .NotOwner⟩
  else if σ.paused then ⟨σ, [], some .Paused⟩
  else if !σ.batchOpen then ⟨σ, [], some .BatchNotOpen⟩
  else ⟨{ σ with batchOpen := false }, [.BatchClosed σ.currentBatchId], none⟩

/-- `submitLoanApplication(a, l, s)`: onlyProvider, whenNotPaused,
checkSubmissionCooldown(msg.sender); requires an open batch.
`_initIfNeeded` creates and discards a dummy ciphertext for an
uninitialized handle — it touches no contract storage and rejects
nothing, so it has no effect here.  The record at the current batch id
is overwritten with the supplied handles as-is, the submission
timestamp is stamped, and the event is emitted. -/
def submitLoanApplication (sender : Address) (now : Nat)
    (encryptedAssets encryptedLiabilities encryptedSolvencyProof : Handle)
    (σ : State) : StepResult :=
  if !σ.isProvider sender then ⟨σ, [], some .NotProvider⟩
  else if σ.paused then ⟨σ, [], some .Paused⟩
  else if now < σ.lastSubmissionTime sender + σ.cooldownSeconds then
    ⟨σ, [], some .CooldownActive⟩
  else if !σ.batchOpen then ⟨σ, [], some .BatchNotOpen⟩
  else
    ⟨{ σ with
        loanApplications := fun i =>
          if i = σ.currentBatchId then
            ⟨encryptedAssets, encryptedLiabilities, encryptedSolvencyProof⟩
          else σ.loanApplications i,
        lastSubmissionTime := fun a =>
          if a = sender then now else σ.lastSubmissionTime a },
     [.LoanApplicationSubmitted sender σ.currentBatchId
        encryptedAssets encryptedLiabilities encryptedSolvencyProof], none⟩

/-- `requestLoanApproval(batchId)`: onlyProvider, whenNotPaused,
checkDecryptionCooldown(msg.sender); requires `1 ≤ batchId ≤
currentBatchId` and all three handles of the referenced record
initialized (else the `_requireInitialized` string revert).  It then
hashes the handles, dispatches `FHE.requestDecryption` — which returns
the oracle-chosen `requestId`, here an input — stores the pending
context, stamps the decryption timestamp, and emits. -/
def requestLoanApproval (sender : Address) (now : Nat) (batchId requestId : Nat)
    (σ : State) : StepResult :=
  if !σ.isProvider sender then ⟨σ, [], some .NotProvider⟩
  else if σ.paused then ⟨σ, [], some .Paused⟩
  else if now < σ.lastDecryptionRequestTime sender + σ.cooldownSeconds then
    ⟨σ, [], some .CooldownActive⟩
  else if batchId = 0 ∨ batchId > σ.currentBatchId then ⟨σ, [], some .InvalidBatch⟩
  else
    let app := σ.loanApplications batchId
    if !FHE.isInitialized app.encryptedAssets then
      ⟨σ, [], some .CiphertextNotInitialized⟩
    else if !FHE.isInitialized app.encryptedLiabilities then
      ⟨σ, [], some .CiphertextNotInitialized⟩
    else if !FHE.isInitialized app.encryptedSolvencyProof then
      ⟨σ, [], some .CiphertextNotInitialized⟩
    else
      let stateHash := hashCiphertexts
        [app.encryptedAssets, app.encryptedLiabilities, app.encryptedSolvencyProof]
        σ.contractAddr
      ⟨{ σ with
          decryptionContexts := fun r =>
            if r = requestId then ⟨batchId, stateHash, false⟩
            else σ.decryptionContexts r,
          lastDecryptionRequestTime := fun a =>
            if a = sender then now else σ.lastDecryptionRequestTime a },
       [.DecryptionRequested requestId batchId], none⟩

/-- `myCallback(requestId, cleartexts, proof)`: public, callable by
anyone.  Checks, in order: replay (context already processed), batch
range of the stored context, state-hash match against the recomputed
hash of the current record, and `FHE.checkSignatures` — whose outcome
over `(requestId, cleartexts, proof)` is the input `sigOk`.  Only then
it marks the context processed and emits the decoded cleartexts. -/
def myCallback (requestId : Nat) (cleartexts : Cleartexts) (sigOk : Bool)
    (σ : State) : StepResult :=
  if (σ.decryptionContexts requestId).processed then ⟨σ, [], some .ReplayAttempt⟩
  else
    let batchId := (σ.decryptionContexts requestId).batchId
    if batchId = 0 ∨ batchId > σ.currentBatchId then ⟨σ, [], some .InvalidBatch⟩
    else
      let app := σ.loanApplications batchId
      let currentHash := hashCiphertexts
        [app.encryptedAssets, app.encryptedLiabilities, app.encryptedSolvencyProof]
        σ.contractAddr
      if currentHash ≠ (σ.decryptionContexts requestId).stateHash then
        ⟨σ, [], some .StateMismatch⟩
      else if !sigOk then ⟨σ, [], some .DecryptionFailed⟩
      else
        ⟨{ σ with
            decryptionContexts := fun r =>
              if r = requestId then
                { σ.decryptionContexts requestId with processed := true }
              else σ.decryptionContexts r },
         [.DecryptionCompleted requestId batchId
            cleartexts.assets cleartexts.liabilities cleartexts.solvencyProof], none⟩

/-- One externally invocable operation, with its caller, the block
timestamp where the contract reads it, and the oracle-supplied inputs
(`requestId` for a request, the payload and verification outcome for a
callback). -/
inductive Op where
  | transferOwnership (sender newOwner : Address)
  | addProvider (sender provider : Address)
  | removeProvider (sender provider : Address)
  | setPaused (sender : Address) (p : Bool)
  | setCooldownSeconds (sender : Address) (newCooldown : Nat)
  | openBatch (sender : Address)
  | closeBatch (sender : Address)
  | submitLoanApplication (sender : Address) (now : Nat) (a l s : Handle)
  | requestLoanApproval (sender : Address) (now : Nat) (batchId requestId : Nat)
  | myCallback (requestId : Nat) (cleartexts : Cleartexts) (sigOk : Bool)
deriving DecidableEq, Repr

/-- Dispatch one operation. -/
def step (op : Op) (σ : State) : StepResult :=
  match op with
  | .transferOwnership sender newOwner => transferOwnership sender newOwner σ
  | .addProvider sender provider => addProvider sender provider σ
  | .removeProvider sender provider => removeProvider sender provider σ
  | .setPaused sender p => setPaused sender p σ
  | .setCooldownSeconds sender n => setCooldownSeconds sender n σ
  | .openBatch sender => openBatch sender σ
  | .closeBatch sender => closeBatch sender σ
  | .submitLoanApplication sender now a l s =>
      submitLoanApplication sender now a l s σ
  | .requestLoanApproval sender now batchId requestId =>
      requestLoanApproval sender now batchId requestId σ
  | .myCallback requestId cleartexts sigOk => myCallback requestId cleartexts sigOk σ

/-- Run a sequence of operations, collecting all emitted events in
order. -/
def run : List Op → State → State × List Event
  | [], σ => (σ, [])
  | op :: ops, σ =>
      let r := step op σ
      let rest := run ops r.state
      (rest.1, r.events ++ rest.2)


/-- Injectivity of the modelled commitment hash on handle triples at a
fixed contract address. -/
lemma hashCiphertexts_inj3 {a b c a2 b2 c2 d : Nat}
    (h : hashCiphertexts [a, b, c] d = hashCiphertexts [a2, b2, c2] d) :
    a = a2 ∧ b = b2 ∧ c = c2 := by
  simp only [hashCiphertexts, List.foldr_cons, List.foldr_nil,
    Nat.pair_eq_pair] at h
  exact ⟨h.1.1, h.1.2.1, h.1.2.2.1⟩

/-- A freshly deployed instance: deployer (owner) 1, contract address
77. -/
def freshState : State := initState 1 77

/-- The fresh instance with address 2 granted the provider role, a zero
cooldown, and batch 1 open with no record submitted yet. -/
def providerState : State :=
  { freshState with
      isProvider := fun a => a == 2,
      cooldownSeconds := 0,
      currentBatchId := 1,
      batchOpen := true }

/-- The provider instance after the system has been paused. -/
def pausedProviderState : State := { providerState with paused := true }

/-- The fresh instance after the system has been paused. -/
def pausedState : State := { freshState with paused := true }

/-- The provider instance with a record for batch 1 whose assets handle
is uninitialized (null). -/
def incompleteState : State :=
  { providerState with
      loanApplications := fun i => if i = 1 then ⟨0, 9, 9⟩ else ⟨0, 0, 0⟩ }

/-- Claim C3, counterexample: on a fresh instance no context is
recorded for request id 5, yet the callback fails with `InvalidBatch`
(the default context carries batch id 0), not with the spec's
`UnknownRequest` — an error the contract does not even declare. -/
theorem C3_counterexample :
    (step (.myCallback 5 ⟨1, 2, 3⟩ true) freshState).err = some Err.InvalidBatch ∧
    some Err.InvalidBatch ≠ some Err.UnknownRequest := by
  exact ⟨by decide, by decide⟩

/-- Claim C3, amended: invoking the callback for a request id with no
recorded decryption context fails, but with `InvalidBatch` — the
absent entry is the default context whose batch id 0 trips the batch
range check — and no operation of the contract ever fails with
`UnknownRequest`. -/
theorem C3_unknown_request_is_invalid_batch :
    (∀ (σ : State) (rid : Nat) (ct : Cleartexts) (sigOk : Bool),
        σ.decryptionContexts rid = ⟨0, 0, false⟩ →
        step (.myCallback rid ct sigOk) σ = ⟨σ, [], some .InvalidBatch⟩) ∧
    (∀ (op : Op) (σ : State), (step op σ).err ≠ some .UnknownRequest) := by
  constructor
  · intro σ rid ct sigOk h
    simp [step, myCallback, h]
  · intro op σ
    cases op <;>
      simp only [step, transferOwnership, addProvider, removeProvider, setPaused,
        setCooldownSeconds, openBatch, closeBatch, submitLoanApplication,
        requestLoanApproval, myCallback] <;>
      split_ifs <;> simp

/-- Witness for the amended C3 at concrete inputs. -/
theorem C3_unknown_request_is_invalid_batch_witness :
    step (.myCallback 6 ⟨1, 2, 3⟩ true) freshState = ⟨freshState, [], some .InvalidBatch⟩ ∧
    (step (.openBatch 1) freshState).err ≠ some .UnknownRequest :=
  ⟨C3_unknown_request_is_invalid_batch.1 freshState 6 ⟨1, 2, 3⟩ true rfl,
   C3_unknown_request_is_invalid_batch.2 (.openBatch 1) freshState⟩

/-- Claim C5, counterexample: with all guards passing, a submission
whose assets handle is the uninitialized handle 0 succeeds and stores
the record unchanged — the claim says it must fail and store nothing. -/
theorem C5_counterexample :
    (step (.submitLoanApplication 2 5 0 9 9) providerState).err = none ∧
    (step (.submitLoanApplication 2 5 0 9 9) providerState).state.loanApplications 1
      = ⟨0, 9, 9⟩ := by
  exact ⟨by decide, by decide⟩

/-- Claim C5, amended: `submitLoanApplication` performs no
initialization check on the supplied handles — `_initIfNeeded` creates
and discards a dummy ciphertext without rejecting anything — so a
submission passing the role, pause, cooldown and open-batch guards
always succeeds and stores the handles as supplied, uninitialized or
not; uninitialized handles are rejected only later, by
`requestLoanApproval`, with the `_requireInitialized` revert. -/
theorem C5_uninitialized_handles_accepted :
    (∀ (σ : State) (s : Address) (now : Nat) (a l sp : Handle),
        σ.isProvider s = true → σ.paused = false →
        σ.lastSubmissionTime s + σ.cooldownSeconds ≤ now →
        σ.batchOpen = true →
        (step (.submitLoanApplication s now a l sp) σ).err = none ∧
        (step (.submitLoanApplication s now a l sp) σ).state.loanApplications
            σ.currentBatchId = ⟨a, l, sp⟩) ∧
    (∀ (σ : State) (s : Address) (now b rid : Nat),
        σ.isProvider s = true → σ.paused = false →
        σ.lastDecryptionRequestTime s + σ.cooldownSeconds ≤ now →
        1 ≤ b → b ≤ σ.currentBatchId →
        (FHE.isInitialized (σ.loanApplications b).encryptedAssets = false ∨
         FHE.isInitialized (σ.loanApplications b).encryptedLiabilities = false ∨
         FHE.isInitialized (σ.loanApplications b).encryptedSolvencyProof = false) →
        (step (.requestLoanApproval s now b rid) σ).err
          = some .CiphertextNotInitialized) := by
  constructor
  · intro σ s now a l sp hprov hp hcool hopen
    simp [step, submitLoanApplication, hprov, hp, hopen, Nat.not_lt.mpr hcool]
  · intro σ s now b rid hprov hp hcool hb1 hble hbad
    have hc : ¬ now < σ.lastDecryptionRequestTime s + σ.cooldownSeconds :=
      Nat.not_lt.mpr hcool
    have hb : ¬ (b = 0 ∨ b > σ.currentBatchId) := by
      push_neg
      exact ⟨Nat.one_le_iff_ne_zero.mp hb1, hble⟩
    simp only [step, requestLoanApproval, hprov, hp, Bool.not_true, Bool.false_eq_true,
      if_false, if_neg hc, if_neg hb]
    split_ifs with h1 h2 h3
    · rfl
    · rfl
    · rfl
    · exfalso
      rcases hbad with h | h | h <;> simp_all

/-- Witness for the amended C5 at concrete inputs. -/
theorem C5_uninitialized_handles_accepted_witness :
    (step (.submitLoanApplication 2 6 0 9 9) providerState).err = none ∧
    (step (.requestLoanApproval 2 5 1 9) incompleteState).err
      = some .CiphertextNotInitialized :=
  ⟨(C5_uninitialized_handles_accepted.1 providerState 2 6 0 9 9 rfl rfl (by decide) rfl).1,
   C5_uninitialized_handles_accepted.2 incompleteState 2 5 1 9 rfl rfl (by decide)
     (by decide) (by decide) (Or.inl (by decide))⟩

/-- Claim C6, counterexample: with the system paused, the owner-only
mutations `transferOwnership` and `setCooldownSeconds` succeed — they
carry no pause check at all, contradicting the claim that they fail
with the paused error. -/
theorem C6_counterexample :
    (step (.transferOwnership 1 3) pausedState).err = none ∧
    (step (.setCooldownSeconds 1 5) pausedState).err = none ∧
    (none : Option Err) ≠ some .Paused := by
  exact ⟨by decide, by decide, by decide⟩

/-- Claim C6, amended: only `openBatch`, `closeBatch`,
`submitLoanApplication` and `requestLoanApproval` check the pause flag
(after their role check) and fail with the paused error while paused;
the owner-only role mutations `transferOwnership`, `addProvider`,
`removeProvider`, `setPaused` and `setCooldownSeconds` perform no pause
check and succeed for the owner even while the system is paused. -/
theorem C6_pause_check_only_on_batch_and_provider_ops :
    (∀ (σ : State) (s : Address), s = σ.owner → σ.paused = true →
        (step (.openBatch s) σ).err = some .Paused ∧
        (step (.closeBatch s) σ).err = some .Paused) ∧
    (∀ (σ : State) (s : Address) (now : Nat) (a l sp : Handle),
        σ.isProvider s = true → σ.paused = true →
        (step (.submitLoanApplication s now a l sp) σ).err = some .Paused) ∧
    (∀ (σ : State) (s : Address) (now b rid : Nat),
        σ.isProvider s = true → σ.paused = true →
        (step (.requestLoanApproval s now b rid) σ).err = some .Paused) ∧
    (∀ (σ : State) (s a : Address) (p : Bool) (n : Nat), s = σ.owner →
        (step (.transferOwnership s a) σ).err = none ∧
        (step (.addProvider s a) σ).err = none ∧
        (step (.removeProvider s a) σ).err = none ∧
        (step (.setPaused s p) σ).err = none ∧
        (step (.setCooldownSeconds s n) σ).err = none) := by
  refine ⟨?_, ?_, ?_, ?_⟩
  · intro σ s hs hp
    subst hs
    constructor <;> simp [step, openBatch, closeBatch, hp]
  · intro σ s now a l sp hprov hp
    simp [step, submitLoanApplication, hprov, hp]
  · intro σ s now b rid hprov hp
    simp [step, requestLoanApproval, hprov, hp]
  · intro σ s a p n hs
    subst hs
    refine ⟨by simp [step, transferOwnership], ?_, ?_, by simp [step, setPaused],
      by simp [step, setCooldownSeconds]⟩
    · simp only [step, addProvider]
      rw [if_neg (fun h => h rfl)]
      split_ifs <;> rfl
    · simp only [step, removeProvider]
      rw [if_neg (fun h => h rfl)]
      split_ifs <;> rfl

/-- Witness for the amended C6 at concrete inputs. -/
theorem C6_pause_check_only_on_batch_and_provider_ops_witness :
    (step (.openBatch 1) pausedState).err = some .Paused ∧
    (step (.submitLoanApplication 2 5 4 9 9) pausedProviderState).err = some .Paused ∧
    (step (.transferOwnership 1 3) pausedState).err = none :=
  ⟨(C6_pause_check_only_on_batch_and_provider_ops.1 pausedState 1 rfl rfl).1,
   C6_pause_check_only_on_batch_and_provider_ops.2.1 pausedProviderState 2 5 4 9 9 rfl rfl,
   (C6_pause_check_only_on_batch_and_provider_ops.2.2.2 pausedState 1 3 true 0 rfl).1⟩

/-- The caller of each operation; the oracle callback is caller-
agnostic. -/
def opSender : Op → Option Address
  | .transferOwnership s _ => some s
  | .addProvider s _ => some s
  | .removeProvider s _ => some s
  | .setPaused s _ => some s
  | .setCooldownSeconds s _ => some s
  | .openBatch s => some s
  | .closeBatch s => some s
  | .submitLoanApplication s _ _ _ _ => some s
  | .requestLoanApproval s _ _ _ => some s
  | .myCallback _ _ _ => none

/-- The operations guarded by the onlyOwner modifier. -/
def isOwnerOnly : Op → Bool
  | .transferOwnership _ _ => true
  | .addProvider _ _ => true
  | .removeProvider _ _ => true
  | .setPaused _ _ => true
  | .setCooldownSeconds _ _ => true
  | .openBatch _ => true
  | .closeBatch _ => true
  | _ => false

/-- The stored owner changes only through a transferOwnership issued by
the current owner. -/
lemma step_owner_eq (op : Op) (σ : State) :
    (step op σ).state.owner = σ.owner ∨
    ∃ s n, op = .transferOwnership s n ∧ s = σ.owner := by
  cases op with
  | transferOwnership s n =>
      by_cases h : s = σ.owner
      · exact Or.inr ⟨s, n, rfl, h⟩
      · left
        simp [step, transferOwnership, h]
  | addProvider s a =>
      left
      simp only [step, addProvider]
      split_ifs <;> rfl
  | removeProvider s a =>
      left
      simp only [step, removeProvider]
      split_ifs <;> rfl
  | setPaused s p =>
      left
      simp only [step, setPaused]
      split_ifs <;> rfl
  | setCooldownSeconds s n =>
      left
      simp only [step, setCooldownSeconds]
      split_ifs <;> rfl
  | openBatch s =>
      left
      simp only [step, openBatch]
      split_ifs <;> rfl
  | closeBatch s =>
      left
      simp only [step, closeBatch]
      split_ifs <;> rfl
  | submitLoanApplication s now a l sp =>
      left
      simp only [step, submitLoanApplication]
      split_ifs <;> rfl
  | requestLoanApproval s now b rid =>
      left
      simp only [step, requestLoanApproval]
      split_ifs <;> rfl
  | myCallback rid ct sig =>
      left
      simp only [step, myCallback]
      split_ifs <;> rfl

/-- Claim C10: transferOwnership by the current owner always succeeds —
no pause check, no validation of the new owner, zero address included —
setting the owner and emitting the event; and once the owner is the
zero address, every owner-only operation from any nonzero caller fails
with NotOwner, and no sequence of operations with nonzero callers can
ever change the owner again. -/
theorem C10_transfer_to_zero_bricks_ownership :
    (∀ (σ : State) (s a : Address), s = σ.owner →
        step (.transferOwnership s a) σ =
          ⟨{ σ with owner := a }, [.OwnershipTransferred σ.owner a], none⟩) ∧
    (∀ (op : Op) (σ : State) (s : Address), σ.owner = 0 →
        isOwnerOnly op = true → opSender op = some s → s ≠ 0 →
        step op σ = ⟨σ, [], some .NotOwner⟩) ∧
    (∀ (ops : List Op) (σ : State), σ.owner = 0 →
        (∀ op ∈ ops, opSender op ≠ some 0) →
        (run ops σ).1.owner = 0) := by
  refine ⟨?_, ?_, ?_⟩
  · intro σ s a hs
    subst hs
    simp [step, transferOwnership]
  · intro op σ s h0 hown hs hns
    cases op <;>
      simp_all [opSender, isOwnerOnly, step, transferOwnership, addProvider,
        removeProvider, setPaused, setCooldownSeconds, openBatch, closeBatch]
  · intro ops
    induction ops with
    | nil =>
        intro σ h0 _
        simpa [run] using h0
    | cons op rest ih =>
        intro σ h0 hsend
        have hstep : (step op σ).state.owner = 0 := by
          rcases step_owner_eq op σ with h | ⟨s, n, hop, hs⟩
          · rw [h]
            exact h0
          · refine absurd ?_ (hsend op (List.mem_cons_self op rest))
            rw [hop, opSender]
            exact congrArg some (hs.trans h0)
        have : (run (op :: rest) σ).1 = (run rest (step op σ).state).1 := by
          simp [run]
        rw [this]
        exact ih (step op σ).state hstep
          (fun o ho => hsend o (List.mem_cons_of_mem op ho))

/-- Witness for C10 at concrete inputs: the owner transfers ownership
to the zero address while paused; afterwards an owner-only call by a
nonzero address fails with NotOwner, and the owner stays zero across a
further sequence of calls. -/
theorem C10_transfer_to_zero_bricks_ownership_witness :
    step (.transferOwnership 1 0) pausedState =
      ⟨{ pausedState with owner := 0 }, [.OwnershipTransferred 1 0], none⟩ ∧
    step (.openBatch 1) { pausedState with owner := 0 } =
      ⟨{ pausedState with owner := 0 }, [], some .NotOwner⟩ ∧
    (run [.setPaused 1 false, .openBatch 2, .transferOwnership 3 3]
        { pausedState with owner := 0 }).1.owner = 0 :=
  ⟨C10_transfer_to_zero_bricks_ownership.1 pausedState 1 0 rfl,
   C10_transfer_to_zero_bricks_ownership.2.1 (.openBatch 1)
     { pausedState with owner := 0 } 1 rfl rfl rfl (by decide),
   C10_transfer_to_zero_bricks_ownership.2.2
     [.setPaused 1 false, .openBatch 2, .transferOwnership 3 3]
     { pausedState with owner := 0 } rfl (by decide)⟩

/-- The two role mutations that succeed silently when they have nothing
to do. -/
def isIdempotentRoleOp : Op → Bool
  | .addProvider _ _ => true
  | .removeProvider _ _ => true
  | _ => false

/-- Every revert path of every operation returns the entry state and
emits nothing: all revert points precede all storage writes. -/
lemma step_error_frame (op : Op) (σ : State) :
    (step op σ).err.isSome = true → (step op σ).state = σ ∧ (step op σ).events = [] := by
  cases op <;>
    simp only [step, transferOwnership, addProvider, removeProvider, setPaused,
      setCooldownSeconds, openBatch, closeBatch, submitLoanApplication,
      requestLoanApproval, myCallback] <;>
    split_ifs <;> simp

/-- Every successful operation other than the two idempotent role
mutations emits at least one event. -/
lemma step_success_emits (op : Op) (σ : State)
    (hok : (step op σ).err = none) (hni : isIdempotentRoleOp op = false) :
    (step op σ).events ≠ [] := by
  cases op <;> try simp [isIdempotentRoleOp] at hni
  all_goals
    revert hok
    simp only [step, transferOwnership, setPaused, setCooldownSeconds, openBatch,
      closeBatch, submitLoanApplication, requestLoanApproval, myCallback]
  all_goals split_ifs <;> simp

/-- Claim C4, counterexample: adding an address that is already a
provider succeeds, changes nothing, and emits no event — refuting the
claim that every successful operation emits its event. -/
theorem C4_counterexample :
    (step (.addProvider 1 2) providerState).err = none ∧
    (step (.addProvider 1 2) providerState).events = [] := by
  exact ⟨by decide, by decide⟩

/-- Claim C4, amended: every operation is atomic — whenever it fails
with any error it leaves the entire state unchanged and emits nothing;
whenever it succeeds it applies its writes and emits its event, except
the two silently idempotent role mutations (addProvider on an existing
provider, removeProvider on a non-provider), which succeed with no
state change and no event; each of those two, on its effective
instance, applies exactly its role write and emits exactly its
event. -/
theorem C4_operations_atomic :
    (∀ (op : Op) (σ : State) (e : Err), (step op σ).err = some e →
        (step op σ).state = σ ∧ (step op σ).events = []) ∧
    (∀ (op : Op) (σ : State), (step op σ).err = none →
        isIdempotentRoleOp op = false → (step op σ).events ≠ []) ∧
    (∀ (σ : State) (s a : Address), s = σ.owner → σ.isProvider a = true →
        step (.addProvider s a) σ = ⟨σ, [], none⟩) ∧
    (∀ (σ : State) (s a : Address), s = σ.owner → σ.isProvider a = false →
        step (.removeProvider s a) σ = ⟨σ, [], none⟩) ∧
    (∀ (σ : State) (s a : Address), s = σ.owner → σ.isProvider a = false →
        step (.addProvider s a) σ =
          ⟨{ σ with isProvider := fun x => if x = a then true else σ.isProvider x },
           [.ProviderAdded a], none⟩) ∧
    (∀ (σ : State) (s a : Address), s = σ.owner → σ.isProvider a = true →
        step (.removeProvider s a) σ =
          ⟨{ σ with isProvider := fun x => if x = a then false else σ.isProvider x },
           [.ProviderRemoved a], none⟩) := by
  refine ⟨?_, ?_, ?_, ?_, ?_, ?_⟩
  · intro op σ e he
    exact step_error_frame op σ (by simp [he])
  · intro op σ hok hni
    exact step_success_emits op σ hok hni
  · intro σ s a hs hprov
    subst hs
    simp [step, addProvider, hprov]
  · intro σ s a hs hprov
    subst hs
    simp [step, removeProvider, hprov]
  · intro σ s a hs hprov
    subst hs
    simp [step, addProvider, hprov]
  · intro σ s a hs hprov
    subst hs
    simp [step, removeProvider, hprov]

/-- Witness for the amended C4 at concrete inputs: a failing call (a
non-provider submitting) changes nothing; a successful openBatch emits;
the idempotent addProvider is a silent no-op; the effective addProvider
and removeProvider apply their role write and emit their event. -/
theorem C4_operations_atomic_witness :
    ((step (.submitLoanApplication 3 5 4 9 9) providerState).state = providerState ∧
      (step (.submitLoanApplication 3 5 4 9 9) providerState).events = []) ∧
    (step (.openBatch 1) freshState).events ≠ [] ∧
    step (.addProvider 1 2) providerState = ⟨providerState, [], none⟩ ∧
    step (.addProvider 1 3) freshState =
      ⟨{ freshState with
          isProvider := fun x => if x = 3 then true else freshState.isProvider x },
       [.ProviderAdded 3], none⟩ ∧
    step (.removeProvider 1 2) providerState =
      ⟨{ providerState with
          isProvider := fun x => if x = 2 then false else providerState.isProvider x },
       [.ProviderRemoved 2], none⟩ :=
  ⟨C4_operations_atomic.1 (.submitLoanApplication 3 5 4 9 9) providerState
      .NotProvider (by decide),
   C4_operations_atomic.2.1 (.openBatch 1) freshState (by decide) (by decide),
   C4_operations_atomic.2.2.1 providerState 1 2 rfl rfl,
   C4_operations_atomic.2.2.2.2.1 freshState 1 3 rfl rfl,
   C4_operations_atomic.2.2.2.2.2 providerState 1 2 rfl rfl⟩

/-- Claim C9: a successful submission stamps only the caller's
submission timestamp — every decryption-request timestamp and every
other address's submission timestamp is unchanged — and a successful
decryption request does the symmetric thing, so the two cooldown
clocks are independent per address. -/
theorem C9_cooldown_clocks_independent :
    (∀ (σ : State) (s : Address) (now : Nat) (a l sp : Handle),
        (step (.submitLoanApplication s now a l sp) σ).err = none →
        (step (.submitLoanApplication s now a l sp) σ).state.lastDecryptionRequestTime
            = σ.lastDecryptionRequestTime ∧
        (step (.submitLoanApplication s now a l sp) σ).state.lastSubmissionTime s = now ∧
        (∀ x, x ≠ s →
          (step (.submitLoanApplication s now a l sp) σ).state.lastSubmissionTime x
            = σ.lastSubmissionTime x)) ∧
    (∀ (σ : State) (s : Address) (now b rid : Nat),
        (step (.requestLoanApproval s now b rid) σ).err = none →
        (step (.requestLoanApproval s now b rid) σ).state.lastSubmissionTime
            = σ.lastSubmissionTime ∧
        (step (.requestLoanApproval s now b rid) σ).state.lastDecryptionRequestTime s
            = now ∧
        (∀ x, x ≠ s →
          (step (.requestLoanApproval s now b rid) σ).state.lastDecryptionRequestTime x
            = σ.lastDecryptionRequestTime x)) := by
  constructor
  · intro σ s now a l sp hok
    simp only [step, submitLoanApplication] at hok ⊢
    split_ifs at hok with h1 h2 h3 h4
    all_goals simp at hok
    simp_all
    rw [if_neg (show ¬ now < σ.lastSubmissionTime s + σ.cooldownSeconds by omega)]
    exact ⟨rfl, by simp, fun x hx => by simp [hx]⟩
  · intro σ s now b rid hok
    simp only [step, requestLoanApproval] at hok ⊢
    split_ifs at hok with h1 h2 h3 h4 h5 h6 h7
    all_goals simp at hok
    simp_all
    rw [if_neg (show ¬ now < σ.lastDecryptionRequestTime s + σ.cooldownSeconds by omega)]
    rw [if_neg (show ¬ σ.currentBatchId < b by omega)]
    exact ⟨rfl, by simp, fun x hx => by simp [hx]⟩

/-- The provider instance with a complete record (all three handles
initialized) stored for batch 1. -/
def readyState : State :=
  { providerState with
      loanApplications := fun i => if i = 1 then ⟨4, 9, 9⟩ else ⟨0, 0, 0⟩ }

/-- Witness for C9 at concrete inputs. -/
theorem C9_cooldown_clocks_independent_witness :
    ((step (.submitLoanApplication 2 6 4 9 9) providerState).state.lastDecryptionRequestTime
        = providerState.lastDecryptionRequestTime ∧
      (step (.submitLoanApplication 2 6 4 9 9) providerState).state.lastSubmissionTime 2 = 6 ∧
      (step (.submitLoanApplication 2 6 4 9 9) providerState).state.lastSubmissionTime 3
        = providerState.lastSubmissionTime 3) ∧
    ((step (.requestLoanApproval 2 6 1 9) readyState).state.lastSubmissionTime
        = readyState.lastSubmissionTime ∧
      (step (.requestLoanApproval 2 6 1 9) readyState).state.lastDecryptionRequestTime 2 = 6) :=
  ⟨⟨(C9_cooldown_clocks_independent.1 providerState 2 6 4 9 9 (by decide)).1,
    (C9_cooldown_clocks_independent.1 providerState 2 6 4 9 9 (by decide)).2.1,
    (C9_cooldown_clocks_independent.1 providerState 2 6 4 9 9 (by decide)).2.2 3 (by decide)⟩,
   ⟨(C9_cooldown_clocks_independent.2 readyState 2 6 1 9 (by decide)).1,
    (C9_cooldown_clocks_independent.2 readyState 2 6 1 9 (by decide)).2.1⟩⟩

/-- Claim C8: once the provider, pause and cooldown guards pass,
requestLoanApproval fails with InvalidBatch when the batch id is 0 or
above the current counter; with the id in range it fails with the
record-incomplete revert (the error the spec names RecordIncomplete)
when any referenced handle is uninitialized; and only when both hold
does it store the pending context, stamp the caller decryption
cooldown timestamp, and emit the requested event. -/
theorem C8_request_checks_then_dispatch :
    ∀ (σ : State) (s : Address) (now b rid : Nat),
      σ.isProvider s = true → σ.paused = false →
      σ.lastDecryptionRequestTime s + σ.cooldownSeconds ≤ now →
      (((b = 0 ∨ b > σ.currentBatchId) →
          step (.requestLoanApproval s now b rid) σ = ⟨σ, [], some .InvalidBatch⟩) ∧
       (1 ≤ b → b ≤ σ.currentBatchId →
        (FHE.isInitialized (σ.loanApplications b).encryptedAssets = false ∨
         FHE.isInitialized (σ.loanApplications b).encryptedLiabilities = false ∨
         FHE.isInitialized (σ.loanApplications b).encryptedSolvencyProof = false) →
          step (.requestLoanApproval s now b rid) σ =
            ⟨σ, [], some .CiphertextNotInitialized⟩) ∧
       (1 ≤ b → b ≤ σ.currentBatchId →
        FHE.isInitialized (σ.loanApplications b).encryptedAssets = true →
        FHE.isInitialized (σ.loanApplications b).encryptedLiabilities = true →
        FHE.isInitialized (σ.loanApplications b).encryptedSolvencyProof = true →
          step (.requestLoanApproval s now b rid) σ =
            ⟨{ σ with
                decryptionContexts := fun r =>
                  if r = rid then
                    ⟨b, hashCiphertexts [(σ.loanApplications b).encryptedAssets,
                        (σ.loanApplications b).encryptedLiabilities,
                        (σ.loanApplications b).encryptedSolvencyProof] σ.contractAddr,
                     false⟩
                  else σ.decryptionContexts r,
                lastDecryptionRequestTime := fun x =>
                  if x = s then now else σ.lastDecryptionRequestTime x },
             [.DecryptionRequested rid b], none⟩)) := by
  intro σ s now b rid hprov hp hcool
  have hc : ¬ now < σ.lastDecryptionRequestTime s + σ.cooldownSeconds :=
    Nat.not_lt.mpr hcool
  refine ⟨?_, ?_, ?_⟩
  · intro hbad
    simp only [step, requestLoanApproval]
    rw [if_neg (by simp [hprov]), if_neg (by simp [hp]), if_neg hc, if_pos hbad]
  · intro hb1 hble hbadh
    have hb : ¬ (b = 0 ∨ b > σ.currentBatchId) := by
      push_neg
      exact ⟨Nat.one_le_iff_ne_zero.mp hb1, hble⟩
    simp only [step, requestLoanApproval, hprov, hp, Bool.not_true, Bool.false_eq_true,
      if_false, if_neg hc, if_neg hb]
    split_ifs with h1 h2 h3
    · rfl
    · rfl
    · rfl
    · exfalso
      rcases hbadh with h | h | h <;> simp_all
  · intro hb1 hble hia hil his
    have hb : ¬ (b = 0 ∨ b > σ.currentBatchId) := by
      push_neg
      exact ⟨Nat.one_le_iff_ne_zero.mp hb1, hble⟩
    simp [step, requestLoanApproval, hprov, hp, hc, hb, hia, hil, his]

/-- Witness for C8 at concrete inputs. -/
theorem C8_request_checks_then_dispatch_witness :
    step (.requestLoanApproval 2 6 5 9) readyState = ⟨readyState, [], some .InvalidBatch⟩ ∧
    step (.requestLoanApproval 2 6 1 9) incompleteState =
      ⟨incompleteState, [], some .CiphertextNotInitialized⟩ ∧
    step (.requestLoanApproval 2 6 1 9) readyState =
      ⟨{ readyState with
          decryptionContexts := fun r =>
            if r = 9 then ⟨1, hashCiphertexts [4, 9, 9] 77, false⟩
            else readyState.decryptionContexts r,
          lastDecryptionRequestTime := fun x =>
            if x = 2 then 6 else readyState.lastDecryptionRequestTime x },
       [.DecryptionRequested 9 1], none⟩ :=
  ⟨(C8_request_checks_then_dispatch readyState 2 6 5 9 rfl rfl (by decide)).1
      (Or.inr (by decide)),
   (C8_request_checks_then_dispatch incompleteState 2 6 1 9 rfl rfl (by decide)).2.1
      (by decide) (by decide) (Or.inl (by decide)),
   (C8_request_checks_then_dispatch readyState 2 6 1 9 rfl rfl (by decide)).2.2
      (by decide) (by decide) (by decide) (by decide) (by decide)⟩

/-- The ready instance with a pending decryption context (request id 9)
committed to the batch-1 record `⟨4, 9, 9⟩`. -/
def pendingState : State :=
  { readyState with
      decryptionContexts := fun r =>
        if r = 9 then ⟨1, hashCiphertexts [4, 9, 9] 77, false⟩ else ⟨0, 0, false⟩ }

/-- The pending instance after a second submission overwrote the
batch-1 record with a different handle triple. -/
def mutatedState : State :=
  { pendingState with
      loanApplications := fun i => if i = 1 then ⟨5, 9, 9⟩ else ⟨0, 0, 0⟩ }

/-- Claim C2: for a pending decryption context whose stored hash
commits to the handle triple recorded at request time, the callback
fails with StateMismatch whenever the current record at that batch
differs from the committed triple — in particular after any later
submission overwrote it — and, whenever the record is unchanged and
the proof verifies, it succeeds, marking the context processed and
emitting the completion event. -/
theorem C2_commitment_binding :
    ∀ (σ : State) (rid b a0 l0 s0 : Nat) (ct : Cleartexts),
      σ.decryptionContexts rid =
        ⟨b, hashCiphertexts [a0, l0, s0] σ.contractAddr, false⟩ →
      1 ≤ b → b ≤ σ.currentBatchId →
      ((σ.loanApplications b ≠ ⟨a0, l0, s0⟩ →
        ∀ sigOk, step (.myCallback rid ct sigOk) σ = ⟨σ, [], some .StateMismatch⟩) ∧
       (σ.loanApplications b = ⟨a0, l0, s0⟩ →
        step (.myCallback rid ct true) σ =
          ⟨{ σ with
              decryptionContexts := fun r =>
                if r = rid then ⟨b, hashCiphertexts [a0, l0, s0] σ.contractAddr, true⟩
                else σ.decryptionContexts r },
           [.DecryptionCompleted rid b ct.assets ct.liabilities ct.solvencyProof],
           none⟩)) := by
  intro σ rid b a0 l0 s0 ct hctx hb1 hble
  have hb : ¬ (b = 0 ∨ b > σ.currentBatchId) := by
    push_neg
    exact ⟨Nat.one_le_iff_ne_zero.mp hb1, hble⟩
  constructor
  · intro hne sigOk
    have hhash : hashCiphertexts [(σ.loanApplications b).encryptedAssets,
        (σ.loanApplications b).encryptedLiabilities,
        (σ.loanApplications b).encryptedSolvencyProof] σ.contractAddr ≠
        hashCiphertexts [a0, l0, s0] σ.contractAddr := by
      intro h
      obtain ⟨e1, e2, e3⟩ := hashCiphertexts_inj3 h
      exact hne (by rw [← e1, ← e2, ← e3])
    simp [step, myCallback, hctx, hb, hhash]
  · intro heq
    simp [step, myCallback, hctx, hb, heq]

/-- Witness for C2 at concrete inputs: after an overwrite the callback
rejects with StateMismatch; on the unchanged record it completes. -/
theorem C2_commitment_binding_witness :
    step (.myCallback 9 ⟨10, 3, 1⟩ false) mutatedState =
      ⟨mutatedState, [], some .StateMismatch⟩ ∧
    step (.myCallback 9 ⟨10, 3, 1⟩ true) pendingState =
      ⟨{ pendingState with
          decryptionContexts := fun r =>
            if r = 9 then ⟨1, hashCiphertexts [4, 9, 9] 77, true⟩
            else pendingState.decryptionContexts r },
       [.DecryptionCompleted 9 1 10 3 1], none⟩ :=
  ⟨(C2_commitment_binding mutatedState 9 1 4 9 9 ⟨10, 3, 1⟩ rfl (by decide)
      (by decide)).1 (by decide) false,
   (C2_commitment_binding pendingState 9 1 4 9 9 ⟨10, 3, 1⟩ rfl (by decide)
      (by decide)).2 rfl⟩

/-- Does this event complete the given request id? -/
def isCompletionFor (rid : Nat) : Event → Bool
  | .DecryptionCompleted r _ _ _ _ => r == rid
  | _ => false

/-- Number of completion events for a given request id in a log. -/
def completedCount (evs : List Event) (rid : Nat) : Nat :=
  evs.countP (isCompletionFor rid)

/-- Is this operation a decryption request carrying the given
oracle-issued request id? -/
def isRequestFor (rid : Nat) : Op → Bool
  | .requestLoanApproval _ _ _ r => r == rid
  | _ => false

/-- Number of decryption-request operations carrying the given request
id in a call sequence. -/
def requestCount (ops : List Op) (rid : Nat) : Nat :=
  ops.countP (isRequestFor rid)

/-- 1 when the context of this request id is live — pending and with a
batch id the callback range check can accept — and 0 otherwise. -/
def pendingSlack (σ : State) (rid : Nat) : Nat :=
  if (σ.decryptionContexts rid).processed = false ∧
      1 ≤ (σ.decryptionContexts rid).batchId then 1 else 0

/-- One step adds at most as many completions for a request id as it
adds requests, accounting for the live context it may consume or
create. -/
lemma step_completedCount (op : Op) (σ : State) (rid : Nat) :
    completedCount (step op σ).events rid + pendingSlack (step op σ).state rid ≤
      requestCount [op] rid + pendingSlack σ rid := by
  cases op with
  | requestLoanApproval s now b r =>
      simp only [step, requestLoanApproval]
      split_ifs with h1 h2 h3 h4 h5 h6 h7
      · simp [completedCount, requestCount]
      · simp [completedCount, requestCount]
      · simp [completedCount, requestCount]
      · simp [completedCount, requestCount]
      · simp [completedCount, requestCount]
      · simp [completedCount, requestCount]
      · simp [completedCount, requestCount]
      · by_cases hr : rid = r
        · subst hr
          have hb1 : 1 ≤ b := by omega
          simp [completedCount, requestCount, isRequestFor, isCompletionFor,
            pendingSlack, hb1]
        · have hctx : (fun r2 => if r2 = r then
              (⟨b, hashCiphertexts [(σ.loanApplications b).encryptedAssets,
                  (σ.loanApplications b).encryptedLiabilities,
                  (σ.loanApplications b).encryptedSolvencyProof] σ.contractAddr,
                false⟩ : DecryptionContext)
              else σ.decryptionContexts r2) rid = σ.decryptionContexts rid := by
            simp [hr]
          simp [completedCount, requestCount, isRequestFor, isCompletionFor,
            pendingSlack, hr, Ne.symm hr]
  | myCallback r ct sig =>
      simp only [step, myCallback]
      split_ifs with h1 h2 h3 h4
      · simp [completedCount, requestCount]
      · simp [completedCount, requestCount]
      · simp [completedCount, requestCount]
      · simp [completedCount, requestCount]
      · by_cases hr : rid = r
        · subst hr
          have hp0 : (σ.decryptionContexts rid).processed = false := by
            revert h1
            cases (σ.decryptionContexts rid).processed <;> simp
          have hb1 : 1 ≤ (σ.decryptionContexts rid).batchId := by omega
          simp [completedCount, requestCount, isRequestFor, isCompletionFor,
            pendingSlack, hp0, hb1]
        · simp [completedCount, requestCount, isRequestFor, isCompletionFor,
            pendingSlack, hr, Ne.symm hr]
  | transferOwnership s n =>
      simp only [step, transferOwnership]
      split_ifs <;> simp [completedCount, requestCount, pendingSlack,
        isCompletionFor, isRequestFor]
  | addProvider s a =>
      simp only [step, addProvider]
      split_ifs <;> simp [completedCount, requestCount, pendingSlack,
        isCompletionFor, isRequestFor]
  | removeProvider s a =>
      simp only [step, removeProvider]
      split_ifs <;> simp [completedCount, requestCount, pendingSlack,
        isCompletionFor, isRequestFor]
  | setPaused s p =>
      simp only [step, setPaused]
      split_ifs <;> simp [completedCount, requestCount, pendingSlack,
        isCompletionFor, isRequestFor]
  | setCooldownSeconds s n =>
      simp only [step, setCooldownSeconds]
      split_ifs <;> simp [completedCount, requestCount, pendingSlack,
        isCompletionFor, isRequestFor]
  | openBatch s =>
      simp only [step, openBatch]
      split_ifs <;> simp [completedCount, requestCount, pendingSlack, isCompletionFor]
  | closeBatch s =>
      simp only [step, closeBatch]
      split_ifs <;> simp [completedCount, requestCount, pendingSlack, isCompletionFor]
  | submitLoanApplication s now a l sp =>
      simp only [step, submitLoanApplication]
      split_ifs <;> simp [completedCount, requestCount, pendingSlack, isCompletionFor]

/-- Along any run, completions for a request id are bounded by requests
for it plus the one live context the start state may hold. -/
lemma run_completedCount (ops : List Op) (σ : State) (rid : Nat) :
    completedCount (run ops σ).2 rid ≤ requestCount ops rid + pendingSlack σ rid := by
  induction ops generalizing σ with
  | nil => simp [run, completedCount, requestCount]
  | cons op rest ih =>
      have h1 := step_completedCount op σ rid
      have h2 := ih (step op σ).state
      have h3 : completedCount (run (op :: rest) σ).2 rid =
          completedCount (step op σ).events rid +
            completedCount (run rest (step op σ).state).2 rid := by
        simp [run, completedCount, List.countP_append]
      have h4 : requestCount (op :: rest) rid =
          requestCount [op] rid + requestCount rest rid := by
        simp [requestCount, List.countP_cons]
        omega
      omega

/-- The ready instance whose context for request id 9 is already
processed. -/
def processedState : State :=
  { readyState with
      decryptionContexts := fun r =>
        if r = 9 then ⟨1, hashCiphertexts [4, 9, 9] 77, true⟩ else ⟨0, 0, false⟩ }

/-- Claim C1: a callback that passes every check marks its context
processed and emits exactly one completion event; any callback on an
already-processed context fails with ReplayAttempt whatever its
payload, changing nothing; and along any run from deployment in which
the oracle issues a request id at most once, at most one completion
event for that id is ever emitted. -/
theorem C1_exactly_once_completion :
    (∀ (σ : State) (rid : Nat) (ct : Cleartexts) (sigOk : Bool),
        (step (.myCallback rid ct sigOk) σ).err = none →
        ((step (.myCallback rid ct sigOk) σ).state.decryptionContexts rid).processed
            = true ∧
        (step (.myCallback rid ct sigOk) σ).events =
          [.DecryptionCompleted rid (σ.decryptionContexts rid).batchId
             ct.assets ct.liabilities ct.solvencyProof]) ∧
    (∀ (σ : State) (rid : Nat) (ct : Cleartexts) (sigOk : Bool),
        (σ.decryptionContexts rid).processed = true →
        step (.myCallback rid ct sigOk) σ = ⟨σ, [], some .ReplayAttempt⟩) ∧
    (∀ (d ca : Address) (ops : List Op) (rid : Nat),
        requestCount ops rid ≤ 1 →
        completedCount (run ops (initState d ca)).2 rid ≤ 1) := by
  refine ⟨?_, ?_, ?_⟩
  · intro σ rid ct sigOk hok
    simp only [step, myCallback] at hok ⊢
    split_ifs at hok ⊢ with h1 h2 h3 h4
    all_goals simp at hok
    exact ⟨by simp, rfl⟩
  · intro σ rid ct sigOk hproc
    simp [step, myCallback, hproc]
  · intro d ca ops rid hreq
    have h := run_completedCount ops (initState d ca) rid
    have hs : pendingSlack (initState d ca) rid = 0 := by
      simp [pendingSlack, initState]
    omega

/-- Witness for C1 at concrete inputs: a passing callback completes
once; replaying against the processed context fails; a concrete
open-submit-request-callback run emits at most one completion. -/
theorem C1_exactly_once_completion_witness :
    (((step (.myCallback 9 ⟨10, 3, 1⟩ true) pendingState).state.decryptionContexts 9).processed
        = true ∧
      (step (.myCallback 9 ⟨10, 3, 1⟩ true) pendingState).events =
        [.DecryptionCompleted 9 1 10 3 1]) ∧
    step (.myCallback 9 ⟨2, 2, 2⟩ true) processedState =
      ⟨processedState, [], some .ReplayAttempt⟩ ∧
    completedCount
      (run [.openBatch 1, .requestLoanApproval 2 0 1 9, .myCallback 9 ⟨1, 1, 1⟩ true]
        (initState 1 77)).2 9 ≤ 1 :=
  ⟨C1_exactly_once_completion.1 pendingState 9 ⟨10, 3, 1⟩ true (by decide),
   C1_exactly_once_completion.2.1 processedState 9 ⟨2, 2, 2⟩ true (by decide),
   C1_exactly_once_completion.2.2 1 77
     [.openBatch 1, .requestLoanApproval 2 0 1 9, .myCallback 9 ⟨1, 1, 1⟩ true] 9
     (by decide)⟩

/-- The ids announced by BatchOpened events, in emission order. -/
def batchOpenedIds (evs : List Event) : List Nat :=
  evs.filterMap fun e =>
    match e with
    | .BatchOpened i => some i
    | _ => none

/-- Invariant tying a state to the opened-batch ids emitted so far:
they increase strictly and never exceed the current counter. -/
def goodIds (σ : State) (ids : List Nat) : Prop :=
  List.Chain' (fun x y => x < y) ids ∧ ∀ i ∈ ids, i ≤ σ.currentBatchId

/-- One step preserves the opened-batch-id invariant. -/
lemma step_batchOpenedIds (op : Op) (σ : State) (ids : List Nat) (h : goodIds σ ids) :
    goodIds (step op σ).state (ids ++ batchOpenedIds (step op σ).events) := by
  cases op with
  | openBatch s =>
      simp only [step, openBatch]
      split_ifs with h1 h2 h3
      · simpa [goodIds, batchOpenedIds] using h
      · simpa [goodIds, batchOpenedIds] using h
      · simpa [goodIds, batchOpenedIds] using h
      · obtain ⟨hchain, hle⟩ := h
        constructor
        · rw [show batchOpenedIds [Event.BatchOpened (σ.currentBatchId + 1)]
              = [σ.currentBatchId + 1] from rfl, List.chain'_append]
          refine ⟨hchain, List.chain'_singleton _, ?_⟩
          intro x hx y hy
          obtain ⟨hne, hxl⟩ := List.mem_getLast?_eq_getLast hx
          have hxmem : x ∈ ids := hxl ▸ List.getLast_mem hne
          have hy1 : σ.currentBatchId + 1 = y := by simpa using hy
          have := hle x hxmem
          omega
        · intro i hi
          show i ≤ σ.currentBatchId + 1
          rcases List.mem_append.mp hi with hi | hi
          · exact le_trans (hle i hi) (Nat.le_succ _)
          · simp [batchOpenedIds] at hi
            omega
  | transferOwnership s n =>
      simp only [step, transferOwnership]
      split_ifs <;> simpa [goodIds, batchOpenedIds] using h
  | addProvider s a =>
      simp only [step, addProvider]
      split_ifs <;> simpa [goodIds, batchOpenedIds] using h
  | removeProvider s a =>
      simp only [step, removeProvider]
      split_ifs <;> simpa [goodIds, batchOpenedIds] using h
  | setPaused s p =>
      simp only [step, setPaused]
      split_ifs <;> simpa [goodIds, batchOpenedIds] using h
  | setCooldownSeconds s n =>
      simp only [step, setCooldownSeconds]
      split_ifs <;> simpa [goodIds, batchOpenedIds] using h
  | closeBatch s =>
      simp only [step, closeBatch]
      split_ifs <;> simpa [goodIds, batchOpenedIds] using h
  | submitLoanApplication s now a l sp =>
      simp only [step, submitLoanApplication]
      split_ifs <;> simpa [goodIds, batchOpenedIds] using h
  | requestLoanApproval s now b rid =>
      simp only [step, requestLoanApproval]
      split_ifs <;> simpa [goodIds, batchOpenedIds] using h
  | myCallback rid ct sig =>
      simp only [step, myCallback]
      split_ifs <;> simpa [goodIds, batchOpenedIds] using h

/-- A whole run preserves the opened-batch-id invariant. -/
lemma run_batchOpenedIds (ops : List Op) (σ : State) (ids : List Nat)
    (h : goodIds σ ids) :
    goodIds (run ops σ).1 (ids ++ batchOpenedIds (run ops σ).2) := by
  induction ops generalizing σ ids with
  | nil => simpa [run, batchOpenedIds] using h
  | cons op rest ih =>
      have h1 := step_batchOpenedIds op σ ids h
      have h2 := ih (step op σ).state (ids ++ batchOpenedIds (step op σ).events) h1
      simpa [run, batchOpenedIds, List.filterMap_append, List.append_assoc] using h2

/-- Claim C7: from deployment, the ids emitted by successful openBatch
calls are strictly increasing — hence never reused — across any
interleaving of operations, and openBatch by the owner on an unpaused
instance with a batch already open fails with BatchAlreadyOpen and
changes nothing. -/
theorem C7_batch_ids_monotonic :
    (∀ (d ca : Address) (ops : List Op),
        List.Chain' (fun x y => x < y)
          (batchOpenedIds (run ops (initState d ca)).2)) ∧
    (∀ (d ca : Address) (ops : List Op),
        (batchOpenedIds (run ops (initState d ca)).2).Nodup) ∧
    (∀ (σ : State) (s : Address), s = σ.owner → σ.paused = false →
        σ.batchOpen = true →
        step (.openBatch s) σ = ⟨σ, [], some .BatchAlreadyOpen⟩) := by
  have key : ∀ (d ca : Address) (ops : List Op),
      List.Chain' (fun x y => x < y) (batchOpenedIds (run ops (initState d ca)).2) := by
    intro d ca ops
    have h := run_batchOpenedIds ops (initState d ca) []
      ⟨List.chain'_nil, by simp⟩
    simpa using h.1
  refine ⟨key, ?_, ?_⟩
  · intro d ca ops
    have hchain := key d ca ops
    have hpair : List.Pairwise (fun x y => x < y)
        (batchOpenedIds (run ops (initState d ca)).2) :=
      List.chain'_iff_pairwise.mp hchain
    exact hpair.imp Nat.ne_of_lt
  · intro σ s hs hp hopen
    subst hs
    simp [step, openBatch, hp, hopen]

/-- Witness for C7 at concrete inputs: a concrete
open-close-open-open run yields strictly increasing, duplicate-free
ids, and the double open fails. -/
theorem C7_batch_ids_monotonic_witness :
    List.Chain' (fun x y => x < y)
      (batchOpenedIds
        (run [.openBatch 1, .closeBatch 1, .openBatch 1, .openBatch 1]
          (initState 1 77)).2) ∧
    (batchOpenedIds
        (run [.openBatch 1, .closeBatch 1, .openBatch 1, .openBatch 1]
          (initState 1 77)).2).Nodup ∧
    step (.openBatch 1) providerState = ⟨providerState, [], some .BatchAlreadyOpen⟩ :=
  ⟨C7_batch_ids_monotonic.1 1 77 [.openBatch 1, .closeBatch 1, .openBatch 1, .openBatch 1],
   C7_batch_ids_monotonic.2.1 1 77 [.openBatch 1, .closeBatch 1, .openBatch 1, .openBatch 1],
   C7_batch_ids_monotonic.2.2 providerState 1 rfl rfl rfl⟩

end ZkSolvencyFHE
